import Mathlib

/-!
Verification of the Texas Instruments daisy-chain protocol analyzer
(repository `texas-instruments-daisy-chain-protocol`, files
`src/HighLevelAnalyzer.py` and `src/analyzer.py`).

Both Python files implement one incremental frame-decoding state machine.
This file embeds them shallowly:

* machine integers are `Nat` (all arithmetic here is masking/shifting of
  byte values, no overflow is possible);
* timestamps (`GraphTime` / `GraphTimeDelta`) are rationals `ℚ`;
* the per-instance mutable attributes of the Python classes become the
  explicit record `DecoderState`, threaded through each call;
* Python dictionary lookups that can raise `KeyError`, and attribute uses
  that can raise `TypeError`, run in `Except String`: a raised exception is
  modelled as `Except.error`;
* the dictionary carried by an emitted `AnalyzerFrame` is modelled as an
  association list of string fields.

The two variants share all per-byte transition logic (the code is
byte-for-byte identical there), so those steps are defined once; the parts
where the files differ (timeout bound, payload hex case, loop structure,
result emission) are defined per variant under the namespaces `Hla`
(for `HighLevelAnalyzer.py`) and `analyzer` (for `analyzer.py`).
-/

/-- Bit masks from the top of both source files. -/
def FRAME_TYPE_MASK : Nat := 0x80

def REQ_TYPE_MASK : Nat := 0x70

def REQ_DATA_SIZE_MASK : Nat := 0x07

def RES_DATA_SIZE_MASK : Nat := 0x7f

def COMMAND_FRAME : Nat := 0x80

def RESPONSE_FRAME : Nat := 0x00

def SINGLE_DEVICE_READ : Nat := 0x00

def SINGLE_DEVICE_WRITE : Nat := 0x10

def STACK_READ : Nat := 0x20

def STACK_WRITE : Nat := 0x30

def BROADCAST_READ : Nat := 0x40

def BROADCAST_WRITE : Nat := 0x50

def BROADCAST_WRITE_REVERSE : Nat := 0x60

/-- `FRAME_TYPE_MAP` of the source: a dictionary from the frame-type code to
its label; a missing key raises `KeyError`, so the lookup is `Option`. -/
def frameTypeMap (n : Nat) : Option String :=
  if n = COMMAND_FRAME then some "Command"
  else if n = RESPONSE_FRAME then some "Response"
  else none

/-- `COMMAND_TYPE_MAP` of the source. -/
def commandTypeMap (n : Nat) : Option String :=
  if n = SINGLE_DEVICE_READ then some "Single Device Read"
  else if n = SINGLE_DEVICE_WRITE then some "Single Device Write"
  else if n = STACK_READ then some "Stack Read"
  else if n = STACK_WRITE then some "Stack Write"
  else if n = BROADCAST_READ then some "Broadcast Read"
  else if n = BROADCAST_WRITE then some "Broadcast Write"
  else if n = BROADCAST_WRITE_REVERSE then some "Broadcast Write Reverse"
  else none

/-- The decoder states: `WAIT_INIT .. WAIT_CRC_2` in `HighLevelAnalyzer.py`,
`TransferState` in `analyzer.py` (same seven values in the same order). -/
inductive TransferState where
  | WAIT_INIT
  | WAIT_DEV_ADDR
  | WAIT_REG_ADDR_1
  | WAIT_REG_ADDR_2
  | WAIT_DATA
  | WAIT_CRC_1
  | WAIT_CRC_2
deriving DecidableEq, Repr

/-- The per-instance mutable attributes of both Python classes.
`lastPacketTime` is `Option ℚ` because `initPacket` assigns `None` to it;
`lastPacketDataSize` is `Int` because the code decrements it and compares
with `<= 0`.  `__init__` assigns only `currentState`; the packet attributes
do not exist until `initPacket` runs, and are never read before it, so the
initial record (`initState` below) carries their `initPacket` values. -/
structure DecoderState where
  currentState : TransferState
  lastPacketType : Nat
  lastPacketTime : Option ℚ
  lastPacketChecksum : Nat
  lastPacketData : String
  lastPacketDataSize : Int
  lastPacketCommandType : Nat
  lastPacketDeviceAddress : Nat
  lastPacketRegisterAddress : Nat
deriving DecidableEq, Repr

/-- The state of a freshly constructed decoder (`__init__` of either file):
`currentState = WAIT_INIT`, packet fields at their `initPacket` defaults. -/
def initState : DecoderState :=
  { currentState := TransferState.WAIT_INIT
    lastPacketType := 0
    lastPacketTime := none
    lastPacketChecksum := 0
    lastPacketData := ""
    lastPacketDataSize := 0
    lastPacketCommandType := 0
    lastPacketDeviceAddress := 0
    lastPacketRegisterAddress := 0 }

/-- `initPacket` of both files: resets every packet attribute (it does not
touch `currentState`). -/
def initPacket (s : DecoderState) : DecoderState :=
  { s with
    lastPacketType := 0
    lastPacketTime := none
    lastPacketChecksum := 0
    lastPacketData := ""
    lastPacketDataSize := 0
    lastPacketCommandType := 0
    lastPacketDeviceAddress := 0
    lastPacketRegisterAddress := 0 }

/-- One input event handed to `decode` (an `AnalyzerFrame` coming from the
host): its `type` string, whether its data dictionary carries an `error`
key, the optional byte string under its `data` key, and the chunk start and
end timestamps. -/
structure InputFrame where
  ftype : String
  hasError : Bool
  data : Option (List Nat)
  startTime : ℚ
  endTime : ℚ
deriving DecidableEq, Repr

/-- An emitted `AnalyzerFrame`: its result-type string, the two timestamps,
and the field dictionary as an association list in construction order. -/
structure AnalyzerResult where
  rtype : String
  startTime : ℚ
  endTime : ℚ
  fields : List (String × String)
deriving DecidableEq, Repr

/-- Decidable equality on `Except` values, so that concrete decoder runs
can be checked by `decide`. -/
instance {α β : Type} [DecidableEq α] [DecidableEq β] : DecidableEq (Except α β) :=
  fun x y =>
    match x, y with
    | Except.error a, Except.error b =>
      if h : a = b then isTrue (by rw [h])
      else isFalse (fun hc => h (by injection hc))
    | Except.ok a, Except.ok b =>
      if h : a = b then isTrue (by rw [h])
      else isFalse (fun hc => h (by injection hc))
    | Except.error _, Except.ok _ => isFalse (fun hc => by injection hc)
    | Except.ok _, Except.error _ => isFalse (fun hc => by injection hc)

/-- The `Transfer Timeout` error frame both variants build. -/
def timeoutResult (t endTime : ℚ) : AnalyzerResult :=
  { rtype := "error_frame"
    startTime := t
    endTime := endTime
    fields := [("error_reason", "Transfer Timeout")] }

/-- Lower-case hexadecimal digit, as Python prints it. -/
def hexDigitLower (n : Nat) : Char :=
  if n < 10 then Char.ofNat (48 + n) else Char.ofNat (87 + n)

/-- Upper-case hexadecimal digit. -/
def hexDigitUpper (n : Nat) : Char :=
  if n < 10 then Char.ofNat (48 + n) else Char.ofNat (55 + n)

/-- Minimal-width hexadecimal rendering with an explicit fuel argument so
that the recursion is structural (the fuel only needs to dominate the digit
count; callers pass `n` itself). -/
def natToHexCore (dig : Nat → Char) : Nat → Nat → String
  | 0, n => String.singleton (dig (n % 16))
  | fuel + 1, n =>
    if n < 16 then String.singleton (dig n)
    else natToHexCore dig fuel (n / 16) ++ String.singleton (dig (n % 16))

/-- Minimal-width lower-case hexadecimal rendering of a natural number,
the digit part of Python `hex(n)`. -/
def natToHexLower (n : Nat) : String := natToHexCore hexDigitLower n n

/-- Minimal-width upper-case hexadecimal rendering of a natural number. -/
def natToHexUpper (n : Nat) : String := natToHexCore hexDigitUpper n n

/-- Python `hex(n)` for a non-negative `n`: `0x` followed by minimal-width
lower-case digits. -/
def pyHex (n : Nat) : String := "0x" ++ natToHexLower n

/-- Zero-pad a digit string on the left to width `w`, as a `0w` format
specification does. -/
def pad0 (w : Nat) (s : String) : String :=
  if s.length < w then String.mk (List.replicate (w - s.length) (Char.ofNat 48)) ++ s
  else s

/-- Python format `{:02x}` (lower case, zero-padded to two digits). -/
def fmt02x (n : Nat) : String := pad0 2 (natToHexLower n)

/-- Python format `{:02X}` (upper case, zero-padded to two digits). -/
def fmt02X (n : Nat) : String := pad0 2 (natToHexUpper n)

/-- Python format `{:04X}` (upper case, zero-padded to four digits). -/
def fmt04X (n : Nat) : String := pad0 4 (natToHexUpper n)

/-- The `WAIT_INIT` branch of the byte loop, identical in both files:
`initPacket`, record the chunk start time, then decode the header byte. -/
def headerStep (s : DecoderState) (b : Nat) (chunkStart : ℚ) : DecoderState :=
  let s0 := { initPacket s with lastPacketTime := some chunkStart }
  if b &&& FRAME_TYPE_MASK = COMMAND_FRAME then
    let command := b &&& REQ_TYPE_MASK
    { s0 with
      lastPacketType := COMMAND_FRAME
      lastPacketDataSize := ((b &&& REQ_DATA_SIZE_MASK : Nat) : Int) + 1
      currentState :=
        if command = SINGLE_DEVICE_READ ∨ command = SINGLE_DEVICE_WRITE then
          TransferState.WAIT_DEV_ADDR
        else
          TransferState.WAIT_REG_ADDR_1
      lastPacketCommandType := command }
  else
    { s0 with
      lastPacketType := RESPONSE_FRAME
      lastPacketDataSize := ((b &&& RES_DATA_SIZE_MASK : Nat) : Int) + 1
      currentState := TransferState.WAIT_DEV_ADDR }

/-- The `WAIT_DEV_ADDR` branch, identical in both files. -/
def devAddrStep (s : DecoderState) (b : Nat) : DecoderState :=
  { s with
    lastPacketDeviceAddress := b
    currentState := TransferState.WAIT_REG_ADDR_1 }

/-- The `WAIT_REG_ADDR_1` branch, identical in both files. -/
def regAddr1Step (s : DecoderState) (b : Nat) : DecoderState :=
  { s with
    lastPacketRegisterAddress := b <<< 8
    currentState := TransferState.WAIT_REG_ADDR_2 }

/-- The `WAIT_REG_ADDR_2` branch, identical in both files. -/
def regAddr2Step (s : DecoderState) (b : Nat) : DecoderState :=
  { s with
    lastPacketRegisterAddress := s.lastPacketRegisterAddress ||| b
    currentState := TransferState.WAIT_DATA }

/-- The `WAIT_DATA` branch, parameterized by the byte formatting, which is
the one point where the two files differ inside the loop body
(`0x{:02x} ` in `HighLevelAnalyzer.py`, `0x{:02X} ` in `analyzer.py`). -/
def dataStepWith (fmt : Nat → String) (s : DecoderState) (b : Nat) : DecoderState :=
  let size := s.lastPacketDataSize - 1
  { s with
    lastPacketData := s.lastPacketData ++ "0x" ++ fmt b ++ " "
    lastPacketDataSize := size
    currentState :=
      if size ≤ 0 then TransferState.WAIT_CRC_1 else s.currentState }

/-- The `WAIT_CRC_1` branch, identical in both files. -/
def crc1Step (s : DecoderState) (b : Nat) : DecoderState :=
  { s with
    lastPacketChecksum := b <<< 8
    currentState := TransferState.WAIT_CRC_2 }

/-- The checksum and state updates of the `WAIT_CRC_2` branch, identical in
both files (the result emission that follows them differs per file). -/
def crc2Step (s : DecoderState) (b : Nat) : DecoderState :=
  { s with
    lastPacketChecksum := s.lastPacketChecksum ||| b
    currentState := TransferState.WAIT_INIT }

/-- `formatResult` of `analyzer.py`: builds the display message; the two
dictionary subscripts may raise `KeyError`, and the emitted frame starts at
`lastPacketTime`. -/
def analyzer.formatResult (s : DecoderState) (f : InputFrame) :
    Except String AnalyzerResult :=
  match frameTypeMap s.lastPacketType with
  | none => Except.error "KeyError"
  | some ftLabel =>
    let msg0 := ftLabel ++ " - "
    let withCmd : Except String String :=
      if s.lastPacketType = COMMAND_FRAME then
        match commandTypeMap s.lastPacketCommandType with
        | none => Except.error "KeyError"
        | some ctLabel => Except.ok (msg0 ++ ctLabel ++ " ")
      else Except.ok msg0
    match withCmd with
    | Except.error e => Except.error e
    | Except.ok msg1 =>
      let msg2 :=
        if (s.lastPacketType = COMMAND_FRAME ∧
              (s.lastPacketCommandType = SINGLE_DEVICE_WRITE ∨
               s.lastPacketCommandType = SINGLE_DEVICE_READ)) ∨
            s.lastPacketType = RESPONSE_FRAME then
          msg1 ++ "Device: 0x" ++ fmt04X s.lastPacketDeviceAddress ++ " "
        else msg1
      let msg3 := msg2 ++ "Register: 0x" ++ fmt04X s.lastPacketRegisterAddress
        ++ " Data: " ++ s.lastPacketData
      match s.lastPacketTime with
      | none => Except.error "TypeError"
      | some t =>
        Except.ok { rtype := "frame", startTime := t, endTime := f.endTime,
                    fields := [("message", msg3)] }

/-- The `for byte in data` loop of `analyzer.onReceived`.  Every branch of
the loop body executes `return None` immediately after consuming its byte,
except the `WAIT_CRC_2` branch, which stores the formatted result in the
local variable `result` and lets the loop continue; `result` is returned
only when the loop runs off the end of the data. -/
def analyzer.loopBytes (f : InputFrame) :
    DecoderState → Option AnalyzerResult → List Nat →
    Except String (DecoderState × Option AnalyzerResult)
  | s, result, [] => Except.ok (s, result)
  | s, _result, b :: rest =>
    match s.currentState with
    | TransferState.WAIT_INIT =>
      Except.ok (headerStep s b f.startTime, none)
    | TransferState.WAIT_DEV_ADDR =>
      Except.ok (devAddrStep s b, none)
    | TransferState.WAIT_REG_ADDR_1 =>
      Except.ok (regAddr1Step s b, none)
    | TransferState.WAIT_REG_ADDR_2 =>
      Except.ok (regAddr2Step s b, none)
    | TransferState.WAIT_DATA =>
      Except.ok (dataStepWith fmt02X s b, none)
    | TransferState.WAIT_CRC_1 =>
      Except.ok (crc1Step s b, none)
    | TransferState.WAIT_CRC_2 =>
      let s2 := crc2Step s b
      match analyzer.formatResult s2 f with
      | Except.error e => Except.error e
      | Except.ok r => analyzer.loopBytes f s2 (some r) rest

/-- `analyzer.onReceived`: missing `data` key returns `None` at once (before
the timeout check); otherwise, when a transfer is in progress and
`lastPacketTime + GraphTimeDelta(float(self.frame_timeout)) < frame.end_time`,
the state resets and a `Transfer Timeout` error frame is returned; otherwise
the byte loop runs.  `frame_timeout` is the configured `NumberSetting`
(non-negative), passed here as the parameter `D`. -/
def analyzer.onReceived (D : ℚ) (s : DecoderState) (f : InputFrame) :
    Except String (DecoderState × Option AnalyzerResult) :=
  match f.data with
  | none => Except.ok (s, none)
  | some data =>
    if s.currentState ≠ TransferState.WAIT_INIT then
      match s.lastPacketTime with
      | none => Except.error "TypeError"
      | some t =>
        if t + D < f.endTime then
          Except.ok ({ s with currentState := TransferState.WAIT_INIT },
                     some (timeoutResult t f.endTime))
        else
          analyzer.loopBytes f s none data
    else
      analyzer.loopBytes f s none data

/-- `analyzer.decode`: skips frames whose type is not `data` and frames
whose data dictionary carries an `error` key, else calls `onReceived`. -/
def analyzer.decode (D : ℚ) (s : DecoderState) (f : InputFrame) :
    Except String (DecoderState × Option AnalyzerResult) :=
  if f.ftype ≠ "data" then Except.ok (s, none)
  else if f.hasError then Except.ok (s, none)
  else analyzer.onReceived D s f

/-- Driving the `analyzer` decoder over a sequence of input frames,
collecting each call's optional result. -/
def analyzer.run (D : ℚ) :
    DecoderState → List InputFrame →
    Except String (DecoderState × List (Option AnalyzerResult))
  | s, [] => Except.ok (s, [])
  | s, f :: fs =>
    match analyzer.decode D s f with
    | Except.error e => Except.error e
    | Except.ok (s2, r) =>
      match analyzer.run D s2 fs with
      | Except.error e => Except.error e
      | Except.ok (s3, rs) => Except.ok (s3, r :: rs)

/-- The result emission in the `WAIT_CRC_2` branch of `Hla.onReceived`
(`HighLevelAnalyzer.py`): an `AnalyzerFrame` whose data dictionary is built
with two map subscripts (each can raise `KeyError`) and Python `hex`
renderings of the addresses. -/
def Hla.emitFrame (s : DecoderState) (f : InputFrame) :
    Except String AnalyzerResult :=
  match frameTypeMap s.lastPacketType,
        commandTypeMap (s.lastPacketCommandType &&& REQ_TYPE_MASK) with
  | some ft, some ct =>
    match s.lastPacketTime with
    | none => Except.error "TypeError"
    | some t =>
      Except.ok { rtype := "frame", startTime := t, endTime := f.endTime,
                  fields :=
                    [("frame_type", ft),
                     ("command_type", ct),
                     ("device_address", pyHex s.lastPacketDeviceAddress),
                     ("register_address", pyHex s.lastPacketRegisterAddress),
                     ("register_data", s.lastPacketData)] }
  | _, _ => Except.error "KeyError"

/-- The `for byte in data` loop of `Hla.onReceived`.  Every branch of the
loop body (including `WAIT_CRC_2`) executes `return`, so at most the first
byte of the chunk is ever consumed; with empty data the function falls off
the end and returns `None`. -/
def Hla.processBytes (f : InputFrame) (s : DecoderState) :
    List Nat → Except String (DecoderState × Option AnalyzerResult)
  | [] => Except.ok (s, none)
  | b :: _rest =>
    match s.currentState with
    | TransferState.WAIT_INIT =>
      Except.ok (headerStep s b f.startTime, none)
    | TransferState.WAIT_DEV_ADDR =>
      Except.ok (devAddrStep s b, none)
    | TransferState.WAIT_REG_ADDR_1 =>
      Except.ok (regAddr1Step s b, none)
    | TransferState.WAIT_REG_ADDR_2 =>
      Except.ok (regAddr2Step s b, none)
    | TransferState.WAIT_DATA =>
      Except.ok (dataStepWith fmt02x s b, none)
    | TransferState.WAIT_CRC_1 =>
      Except.ok (crc1Step s b, none)
    | TransferState.WAIT_CRC_2 =>
      let s2 := crc2Step s b
      match Hla.emitFrame s2 f with
      | Except.error e => Except.error e
      | Except.ok r => Except.ok (s2, some r)

/-- `Hla.onReceived`: same shape as `analyzer.onReceived` except that the
timeout bound is the hard-coded `GraphTimeDelta(0.01)` — the declared
`frame_timeout` setting is never read — and the loop drops trailing
bytes. -/
def Hla.onReceived (s : DecoderState) (f : InputFrame) :
    Except String (DecoderState × Option AnalyzerResult) :=
  match f.data with
  | none => Except.ok (s, none)
  | some data =>
    if s.currentState ≠ TransferState.WAIT_INIT then
      match s.lastPacketTime with
      | none => Except.error "TypeError"
      | some t =>
        if t + (1 / 100 : ℚ) < f.endTime then
          Except.ok ({ s with currentState := TransferState.WAIT_INIT },
                     some (timeoutResult t f.endTime))
        else
          Hla.processBytes f s data
    else
      Hla.processBytes f s data

/-- `Hla.decode`: identical filter to `analyzer.decode`. -/
def Hla.decode (s : DecoderState) (f : InputFrame) :
    Except String (DecoderState × Option AnalyzerResult) :=
  if f.ftype ≠ "data" then Except.ok (s, none)
  else if f.hasError then Except.ok (s, none)
  else Hla.onReceived s f

/-- Driving the `Hla` decoder over a sequence of input frames. -/
def Hla.run :
    DecoderState → List InputFrame →
    Except String (DecoderState × List (Option AnalyzerResult))
  | s, [] => Except.ok (s, [])
  | s, f :: fs =>
    match Hla.decode s f with
    | Except.error e => Except.error e
    | Except.ok (s2, r) =>
      match Hla.run s2 fs with
      | Except.error e => Except.error e
      | Except.ok (s3, rs) => Except.ok (s3, r :: rs)

/-- A single-byte `data` input frame, the normal shape delivered by the
capture host: one protocol byte with its chunk timestamps. -/
def byteChunk (b : Nat) (t0 t1 : ℚ) : InputFrame :=
  { ftype := "data", hasError := false, data := some [b],
    startTime := t0, endTime := t1 }

/-- The payload rendering `analyzer.py` accumulates across the `WAIT_DATA`
state: `0x{:02X} ` per byte, in input order. -/
def renderUpper : List Nat → String
  | [] => ""
  | b :: rest => "0x" ++ fmt02X b ++ " " ++ renderUpper rest

/-- C1: the claim says every byte of a multi-byte chunk advances the state
machine within the same call.  In the code every branch of the byte loop
(in `analyzer.py`, every branch except `WAIT_CRC_2`) executes `return`, so
the trailing bytes of a chunk are silently dropped.  Feeding the two-byte
chunk `[0x90, 0x05]` (a Single Device Write header followed by its device
address) to a fresh decoder of either variant consumes only the header:
the call returns with the decoder still in `WAIT_DEV_ADDR` and the device
address still `0`, whereas the same two bytes delivered one per chunk reach
`WAIT_REG_ADDR_1` with device address `5`. -/
theorem c1_trailing_bytes_dropped :
    Hla.onReceived initState
        { ftype := "data", hasError := false, data := some [0x90, 0x05],
          startTime := 0, endTime := 0 } =
      Except.ok (⟨TransferState.WAIT_DEV_ADDR, 0x80, some 0, 0, "", 1, 0x10, 0, 0⟩, none)
  ∧ analyzer.onReceived 1 initState
        { ftype := "data", hasError := false, data := some [0x90, 0x05],
          startTime := 0, endTime := 0 } =
      Except.ok (⟨TransferState.WAIT_DEV_ADDR, 0x80, some 0, 0, "", 1, 0x10, 0, 0⟩, none)
  ∧ analyzer.run 1 initState [byteChunk 0x90 0 0, byteChunk 0x05 0 0] =
      Except.ok (⟨TransferState.WAIT_REG_ADDR_1, 0x80, some 0, 0, "", 1, 0x10, 5, 0⟩,
                 [none, none]) := by
  have h1 : ¬((0 : ℚ) + 1 < 0) := by norm_num
  refine ⟨by decide, by decide, ?_⟩
  simp +decide [analyzer.run, analyzer.decode, analyzer.onReceived, analyzer.loopBytes,
    headerStep, devAddrStep, initPacket, byteChunk, initState, h1]

/-- C2: the claim says a Command header whose bits 6-4 match no command
type (the `0x70` pattern) makes the decoder emit an `UnknownCommandType`
error and reset.  The code has no such path: the header call for `0xF0`
returns no result and continues parsing (first conjunct), the `0x70`
pattern is indeed absent from `COMMAND_TYPE_MAP` (second conjunct), and
when the frame completes, the `COMMAND_TYPE_MAP` subscript raises
`KeyError`, crashing the decoder in both variants (last conjuncts). -/
theorem c2_unknown_command_type_crashes :
    analyzer.decode 1 initState (byteChunk 0xF0 0 0) =
      Except.ok (⟨TransferState.WAIT_REG_ADDR_1, 0x80, some 0, 0, "", 1, 0x70, 0, 0⟩, none)
  ∧ commandTypeMap (0xF0 &&& REQ_TYPE_MASK) = none
  ∧ analyzer.run 1 initState
      [byteChunk 0xF0 0 0, byteChunk 0 0 0, byteChunk 0 0 0, byteChunk 0 0 0,
       byteChunk 0 0 0, byteChunk 0 0 0] = Except.error "KeyError"
  ∧ Hla.run initState
      [byteChunk 0xF0 0 0, byteChunk 0 0 0, byteChunk 0 0 0, byteChunk 0 0 0,
       byteChunk 0 0 0, byteChunk 0 0 0] = Except.error "KeyError" := by
  have h1 : ¬((0 : ℚ) + 1 < 0) := by norm_num
  have h2 : ¬((0 : ℚ) + 1 / 100 < 0) := by norm_num
  refine ⟨by decide, by decide, ?_, ?_⟩
  · simp +decide [analyzer.run, analyzer.decode, analyzer.onReceived, analyzer.loopBytes,
      analyzer.formatResult, headerStep, regAddr1Step, regAddr2Step, dataStepWith,
      crc1Step, crc2Step, initPacket, byteChunk, initState, h1]
  · simp +decide [Hla.run, Hla.decode, Hla.onReceived, Hla.processBytes, Hla.emitFrame,
      headerStep, regAddr1Step, regAddr2Step, dataStepWith, crc1Step, crc2Step,
      initPacket, byteChunk, initState, h2]

/-- C3: the claim says the idle-timeout bound is exactly the configured
`frame_timeout` for every non-negative value.  `HighLevelAnalyzer.py`
declares the `frame_timeout` setting but compares against the hard-coded
`GraphTimeDelta(0.01)` instead: a transfer started at time `0` (first
conjunct reaches that state from a fresh decoder) is timed out by a chunk
ending at `0.05` no matter what timeout the host configured (second
conjunct — note `Hla.onReceived` does not even take the setting as an
input), while `analyzer.py` with the configured timeout `5` correctly
keeps decoding at the same instant (third conjunct). -/
theorem c3_hla_ignores_frame_timeout :
    Hla.onReceived initState (byteChunk 0x90 0 0) =
      Except.ok (⟨TransferState.WAIT_DEV_ADDR, 0x80, some 0, 0, "", 1, 0x10, 0, 0⟩, none)
  ∧ Hla.onReceived ⟨TransferState.WAIT_DEV_ADDR, 0x80, some 0, 0, "", 1, 0x10, 0, 0⟩
        (byteChunk 0x05 (1 / 20) (1 / 20)) =
      Except.ok (⟨TransferState.WAIT_INIT, 0x80, some 0, 0, "", 1, 0x10, 0, 0⟩,
                 some (timeoutResult 0 (1 / 20)))
  ∧ analyzer.onReceived 5 ⟨TransferState.WAIT_DEV_ADDR, 0x80, some 0, 0, "", 1, 0x10, 0, 0⟩
        (byteChunk 0x05 (1 / 20) (1 / 20)) =
      Except.ok (⟨TransferState.WAIT_REG_ADDR_1, 0x80, some 0, 0, "", 1, 0x10, 5, 0⟩,
                 none) := by
  have h1 : ((0 : ℚ) + 1 / 100 < 1 / 20) := by norm_num
  have h2 : ¬((0 : ℚ) + 5 < 1 / 20) := by norm_num
  refine ⟨by decide, ?_, ?_⟩
  · simp +decide [Hla.onReceived, byteChunk, timeoutResult, h1]
    norm_num
  · simp +decide [analyzer.onReceived, analyzer.loopBytes, devAddrStep, byteChunk, h2]
    norm_num

/-- C5, counterexample: a complete Stack Read frame (header `0xA0`, no
device-address byte ever consumed) emitted by `HighLevelAnalyzer.py`
nevertheless carries a `device_address` field, and its register address
`0x0100` is rendered by Python `hex` as `0x100` — a string of length 5,
not a fixed-width 4-hex-digit string. -/
theorem c5_counterexample :
    Hla.run initState
      [byteChunk 0xA0 0 0, byteChunk 0x01 0 0, byteChunk 0x00 0 0,
       byteChunk 0x00 0 0, byteChunk 0x00 0 0, byteChunk 0x00 0 0] =
      Except.ok (⟨TransferState.WAIT_INIT, 0x80, some 0, 0, "0x00 ", 0, 0x20, 0, 0x100⟩,
        [none, none, none, none, none,
         some ⟨"frame", 0, 0,
           [("frame_type", "Command"), ("command_type", "Stack Read"),
            ("device_address", "0x0"), ("register_address", "0x100"),
            ("register_data", "0x00 ")]⟩])
  ∧ (pyHex 0x100).length = 5 := by
  have h1 : ¬((0 : ℚ) + 1 / 100 < 0) := by norm_num
  refine ⟨?_, by decide⟩
  simp +decide [Hla.run, Hla.decode, Hla.onReceived, Hla.processBytes, Hla.emitFrame,
    headerStep, regAddr1Step, regAddr2Step, dataStepWith, crc1Step, crc2Step,
    initPacket, byteChunk, initState, h1]

/-- C6, counterexample: a valid Single Device Write frame delivered one
byte per chunk with every inter-chunk gap equal to `6`, below the
configured timeout `10`, does not yield a `Frame` result: the code compares
the chunk end against the frame start timestamp plus the timeout (total
elapsed time, not idle gap), so the transfer is timed out at the third
byte (and the re-parse of the remaining bytes is timed out again), giving
two `Transfer Timeout` errors and no completed frame. -/
theorem c6_counterexample :
    analyzer.run 10 initState
      [byteChunk 0x90 0 0, byteChunk 0x05 6 6, byteChunk 0x00 12 12,
       byteChunk 0x2A 18 18, byteChunk 0xFF 24 24, byteChunk 0x00 30 30,
       byteChunk 0x00 36 36] =
      Except.ok (⟨TransferState.WAIT_DEV_ADDR, 0, some 36, 0, "", 1, 0, 0, 0⟩,
        [none, none, some (timeoutResult 0 12), none, none,
         some (timeoutResult 18 30), none]) := by
  have h1 : ¬((0 : ℚ) + 10 < 6) := by norm_num
  have h2 : ((0 : ℚ) + 10 < 12) := by norm_num
  have h3 : ¬((18 : ℚ) + 10 < 24) := by norm_num
  have h4 : ((18 : ℚ) + 10 < 30) := by norm_num
  simp +decide [analyzer.run, analyzer.decode, analyzer.onReceived, analyzer.loopBytes,
    headerStep, devAddrStep, initPacket, byteChunk, initState, timeoutResult,
    h1, h2, h3, h4]

/-- C8, counterexample: after the call that emits the completed Single
Device Write frame, the decoder is back in `WAIT_INIT` but its packet
attributes still hold the decoded frame (register address `0x2A`, device
address `5`, ...), so the internal state is not identical to the state
immediately after construction. -/
theorem c8_counterexample :
    analyzer.run 1 initState
      [byteChunk 0x90 0 0, byteChunk 0x05 0 0, byteChunk 0x00 0 0,
       byteChunk 0x2A 0 0, byteChunk 0xFF 0 0, byteChunk 0x00 0 0,
       byteChunk 0x00 0 0] =
      Except.ok (⟨TransferState.WAIT_INIT, 0x80, some 0, 0, "0xFF ", 0, 0x10, 5, 0x2A⟩,
        [none, none, none, none, none, none,
         some ⟨"frame", 0, 0,
           [("message",
             "Command - Single Device Write Device: 0x0005 Register: 0x002A Data: 0xFF ")]⟩])
  ∧ (⟨TransferState.WAIT_INIT, 0x80, some 0, 0, "0xFF ", 0, 0x10, 5, 0x2A⟩ : DecoderState)
      ≠ initState := by
  have h1 : ¬((0 : ℚ) + 1 < 0) := by norm_num
  refine ⟨?_, by decide⟩
  simp +decide [analyzer.run, analyzer.decode, analyzer.onReceived, analyzer.loopBytes,
    analyzer.formatResult, headerStep, devAddrStep, regAddr1Step, regAddr2Step,
    dataStepWith, crc1Step, crc2Step, initPacket, byteChunk, initState, h1]

/-- C9: an input frame whose type is not `data`, or whose data dictionary
carries an `error` key, or lacks a `data` entry, produces no result and
leaves every field of the decoder state unchanged, in both variants; in
particular the timeout check is not reached (the returned state and result
are the same whatever the timestamps and the configured timeout). -/
theorem c9_non_data_frames_ignored (D : ℚ) (s : DecoderState) (f : InputFrame)
    (h : f.ftype ≠ "data" ∨ f.hasError = true ∨ f.data = none) :
    analyzer.decode D s f = Except.ok (s, none)
  ∧ Hla.decode s f = Except.ok (s, none) := by
  rcases h with h | h | h
  · constructor <;> simp [analyzer.decode, Hla.decode, h]
  · constructor <;> simp [analyzer.decode, Hla.decode, h]
  · constructor <;>
      simp [analyzer.decode, Hla.decode, analyzer.onReceived, Hla.onReceived, h]

/-- C9, witness: a frame of type `mytype` is ignored by both decoders. -/
theorem c9_witness :
    analyzer.decode 0 initState
        { ftype := "mytype", hasError := false, data := some [1],
          startTime := 0, endTime := 7 } = Except.ok (initState, none)
  ∧ Hla.decode initState
        { ftype := "mytype", hasError := false, data := some [1],
          startTime := 0, endTime := 7 } = Except.ok (initState, none) :=
  c9_non_data_frames_ignored 0 initState
    { ftype := "mytype", hasError := false, data := some [1],
      startTime := 0, endTime := 7 } (Or.inl (by decide))

/-- C7: a byte consumed in the `WAIT_INIT` state starts a new packet (all
packet fields reset by `initPacket`, then `lastPacketTime` set to the chunk
start) and emits no result, in both variants.  If bit 7 is set the packet
is a Command whose command type is the in-place bits 6-4 (`byte & 0x70`,
the encoding the command-type table uses) and whose payload length is
`(byte & 0x07) + 1`, and the next state is `WAIT_DEV_ADDR` exactly for
Single Device Read/Write, else `WAIT_REG_ADDR_1`; if bit 7 is clear the
packet is a Response with payload length `(byte & 0x7f) + 1` and next
state `WAIT_DEV_ADDR`. -/
theorem c7_header_byte_transition (s : DecoderState) (b : Nat) (t : ℚ)
    (f : InputFrame) (hb : b < 256)
    (hs : s.currentState = TransferState.WAIT_INIT) :
    (∀ r rest, analyzer.loopBytes f s r (b :: rest) =
        Except.ok (headerStep s b f.startTime, none))
  ∧ (∀ rest, Hla.processBytes f s (b :: rest) =
        Except.ok (headerStep s b f.startTime, none))
  ∧ (headerStep s b t).lastPacketTime = some t
  ∧ (headerStep s b t).lastPacketChecksum = 0
  ∧ (headerStep s b t).lastPacketData = ""
  ∧ (headerStep s b t).lastPacketDeviceAddress = 0
  ∧ (headerStep s b t).lastPacketRegisterAddress = 0
  ∧ (b &&& FRAME_TYPE_MASK = COMMAND_FRAME →
      (headerStep s b t).lastPacketType = COMMAND_FRAME
    ∧ (headerStep s b t).lastPacketCommandType = b &&& REQ_TYPE_MASK
    ∧ (headerStep s b t).lastPacketDataSize = ((b &&& REQ_DATA_SIZE_MASK : Nat) : Int) + 1
    ∧ (headerStep s b t).currentState =
        (if b &&& REQ_TYPE_MASK = SINGLE_DEVICE_READ
            ∨ b &&& REQ_TYPE_MASK = SINGLE_DEVICE_WRITE
         then TransferState.WAIT_DEV_ADDR else TransferState.WAIT_REG_ADDR_1))
  ∧ (b &&& FRAME_TYPE_MASK = 0 →
      (headerStep s b t).lastPacketType = RESPONSE_FRAME
    ∧ (headerStep s b t).lastPacketDataSize = ((b &&& RES_DATA_SIZE_MASK : Nat) : Int) + 1
    ∧ (headerStep s b t).currentState = TransferState.WAIT_DEV_ADDR) := by
  refine ⟨?_, ?_, ?_, ?_, ?_, ?_, ?_, ?_, ?_⟩
  · intro r rest
    simp [analyzer.loopBytes, hs]
  · intro rest
    simp [Hla.processBytes, hs]
  · by_cases hbit : b &&& FRAME_TYPE_MASK = COMMAND_FRAME <;>
      simp [headerStep, initPacket, hbit]
  · by_cases hbit : b &&& FRAME_TYPE_MASK = COMMAND_FRAME <;>
      simp [headerStep, initPacket, hbit]
  · by_cases hbit : b &&& FRAME_TYPE_MASK = COMMAND_FRAME <;>
      simp [headerStep, initPacket, hbit]
  · by_cases hbit : b &&& FRAME_TYPE_MASK = COMMAND_FRAME <;>
      simp [headerStep, initPacket, hbit]
  · by_cases hbit : b &&& FRAME_TYPE_MASK = COMMAND_FRAME <;>
      simp [headerStep, initPacket, hbit]
  · intro hbit
    simp [headerStep, initPacket, hbit]
  · intro hbit
    have hbit2 : ¬(b &&& FRAME_TYPE_MASK = COMMAND_FRAME) := by
      simp [hbit, COMMAND_FRAME]
    simp [headerStep, initPacket, hbit2]

/-- C7, witness: the Stack Write header `0xB1` (bit 7 set, command bits
`0x30`, payload length `(1 & 7) + 1 = 2`) applied to a fresh decoder. -/
theorem c7_witness :
    (headerStep initState 0xB1 3).lastPacketTime = some 3 :=
  (c7_header_byte_transition initState 0xB1 3
    { ftype := "data", hasError := false, data := some [0xB1],
      startTime := 3, endTime := 3 } (by decide) rfl).2.2.1

/-- C4, amended: when a transfer is in progress (state differs from
`WAIT_INIT`, last header timestamp `t`) and a chunk arrives, `analyzer.py`
with configured timeout `D` emits exactly one `Transfer Timeout` error
spanning `t` to the chunk end whenever `t + D < chunkEnd`, resetting only
`currentState` to `WAIT_INIT` before any byte of the chunk is interpreted
(the returned state shows the chunk bytes untouched);
`HighLevelAnalyzer.py` behaves the same way but against the hard-coded
bound `0.01` instead of the configured timeout. -/
theorem c4_timeout_resets_before_processing (D : ℚ) (s : DecoderState)
    (f : InputFrame) (t : ℚ) (data : List Nat)
    (hs : s.currentState ≠ TransferState.WAIT_INIT)
    (ht : s.lastPacketTime = some t)
    (hd : f.data = some data) :
    (t + D < f.endTime →
      analyzer.onReceived D s f =
        Except.ok ({ s with currentState := TransferState.WAIT_INIT },
                   some (timeoutResult t f.endTime)))
  ∧ (t + (1 / 100 : ℚ) < f.endTime →
      Hla.onReceived s f =
        Except.ok ({ s with currentState := TransferState.WAIT_INIT },
                   some (timeoutResult t f.endTime))) := by
  constructor <;> intro hto
  · simp [analyzer.onReceived, hd, hs, ht, hto]
  · have hto2 : ¬ f.endTime ≤ t + (1 / 100 : ℚ) := not_le.mpr hto
    simp [Hla.onReceived, hd, hs, ht, hto]
    intro hle
    rw [one_div] at hto2
    exact absurd hle hto2

/-- C4, witness: an in-progress transfer with header timestamp `0` and
timeout `1` is timed out by a chunk ending at `2`. -/
theorem c4_witness :
    analyzer.onReceived 1 ⟨TransferState.WAIT_DEV_ADDR, 0x80, some 0, 0, "", 1, 0x10, 0, 0⟩
        (byteChunk 5 2 2) =
      Except.ok (⟨TransferState.WAIT_INIT, 0x80, some 0, 0, "", 1, 0x10, 0, 0⟩,
                 some (timeoutResult 0 2))
  ∧ Hla.onReceived ⟨TransferState.WAIT_DEV_ADDR, 0x80, some 0, 0, "", 1, 0x10, 0, 0⟩
        (byteChunk 5 2 2) =
      Except.ok (⟨TransferState.WAIT_INIT, 0x80, some 0, 0, "", 1, 0x10, 0, 0⟩,
                 some (timeoutResult 0 2)) :=
  ⟨(c4_timeout_resets_before_processing 1
      ⟨TransferState.WAIT_DEV_ADDR, 0x80, some 0, 0, "", 1, 0x10, 0, 0⟩
      (byteChunk 5 2 2) 0 [5] (by decide) rfl rfl).1 (by norm_num [byteChunk]),
   (c4_timeout_resets_before_processing 1
      ⟨TransferState.WAIT_DEV_ADDR, 0x80, some 0, 0, "", 1, 0x10, 0, 0⟩
      (byteChunk 5 2 2) 0 [5] (by decide) rfl rfl).2 (by norm_num [byteChunk])⟩

/-- The header step always resets the register address to zero. -/
theorem headerStep_registerAddress (s : DecoderState) (b : Nat) (t : ℚ) :
    (headerStep s b t).lastPacketRegisterAddress = 0 := by
  by_cases hbit : b &&& FRAME_TYPE_MASK = COMMAND_FRAME <;>
    simp [headerStep, initPacket, hbit]

/-- The header step always resets the checksum to zero. -/
theorem headerStep_checksum (s : DecoderState) (b : Nat) (t : ℚ) :
    (headerStep s b t).lastPacketChecksum = 0 := by
  by_cases hbit : b &&& FRAME_TYPE_MASK = COMMAND_FRAME <;>
    simp [headerStep, initPacket, hbit]

/-- A byte shifted left by eight fits in sixteen bits. -/
theorem byte_shift_lt (b : Nat) (hb : b < 256) : b <<< 8 < 2 ^ 16 := by
  have : b <<< 8 = b * 256 := by
    rw [Nat.shiftLeft_eq]
  omega

/-- The byte loop of `analyzer.onReceived` keeps the register address and
checksum below `2 ^ 16` whenever the incoming bytes are below `256`. -/
theorem analyzer.loopBytes_bounds (f : InputFrame) :
    ∀ (data : List Nat), (∀ b ∈ data, b < 256) →
    ∀ (s : DecoderState) (r : Option AnalyzerResult)
      (s2 : DecoderState) (r2 : Option AnalyzerResult),
      s.lastPacketRegisterAddress < 2 ^ 16 → s.lastPacketChecksum < 2 ^ 16 →
      analyzer.loopBytes f s r data = Except.ok (s2, r2) →
      s2.lastPacketRegisterAddress < 2 ^ 16 ∧ s2.lastPacketChecksum < 2 ^ 16
  | [], _, s, r, s2, r2, hreg, hcrc, heq => by
    simp only [analyzer.loopBytes] at heq
    cases heq
    exact ⟨hreg, hcrc⟩
  | b :: rest, hdata, s, r, s2, r2, hreg, hcrc, heq => by
    have hb : b < 256 := hdata b (List.mem_cons_self b rest)
    have hrest : ∀ x ∈ rest, x < 256 := fun x hx => hdata x (List.mem_cons_of_mem b hx)
    rw [analyzer.loopBytes] at heq
    rcases hstate : s.currentState <;> simp only [hstate] at heq
    · cases heq
      have hz1 := headerStep_registerAddress s b f.startTime
      have hz2 := headerStep_checksum s b f.startTime
      omega
    · cases heq
      exact ⟨hreg, hcrc⟩
    · cases heq
      exact ⟨byte_shift_lt b hb, hcrc⟩
    · cases heq
      exact ⟨Nat.or_lt_two_pow hreg (by omega), hcrc⟩
    · cases heq
      exact ⟨hreg, hcrc⟩
    · cases heq
      exact ⟨hreg, byte_shift_lt b hb⟩
    · rcases hfmt : analyzer.formatResult (crc2Step s b) f with e | rr <;>
        rw [hfmt] at heq
      · cases heq
      · exact analyzer.loopBytes_bounds f rest hrest (crc2Step s b) (some rr) s2 r2
          hreg (Nat.or_lt_two_pow hcrc (by omega)) heq

/-- One `analyzer` call keeps the register address and checksum below
`2 ^ 16`. -/
theorem analyzer.decode_bounds (D : ℚ) (s : DecoderState) (f : InputFrame)
    (hdata : ∀ data, f.data = some data → ∀ b ∈ data, b < 256)
    (s2 : DecoderState) (r2 : Option AnalyzerResult)
    (hreg : s.lastPacketRegisterAddress < 2 ^ 16)
    (hcrc : s.lastPacketChecksum < 2 ^ 16)
    (heq : analyzer.decode D s f = Except.ok (s2, r2)) :
    s2.lastPacketRegisterAddress < 2 ^ 16 ∧ s2.lastPacketChecksum < 2 ^ 16 := by
  rw [analyzer.decode] at heq
  split at heq
  · cases heq
    exact ⟨hreg, hcrc⟩
  · split at heq
    · cases heq
      exact ⟨hreg, hcrc⟩
    · rcases hd : f.data with _ | data
      · simp only [analyzer.onReceived, hd] at heq
        cases heq
        exact ⟨hreg, hcrc⟩
      · have hbytes : ∀ b ∈ data, b < 256 := hdata data hd
        simp only [analyzer.onReceived, hd] at heq
        by_cases hs : s.currentState ≠ TransferState.WAIT_INIT
        · rw [if_pos hs] at heq
          rcases ht : s.lastPacketTime with _ | t
          · simp only [ht] at heq
            cases heq
          · simp only [ht] at heq
            split at heq
            · cases heq
              exact ⟨hreg, hcrc⟩
            · exact analyzer.loopBytes_bounds f data hbytes s none s2 r2 hreg hcrc heq
        · rw [if_neg hs] at heq
          exact analyzer.loopBytes_bounds f data hbytes s none s2 r2 hreg hcrc heq

/-- Driving `analyzer` keeps the register address and checksum below
`2 ^ 16` from any state already satisfying the bounds. -/
theorem analyzer.run_bounds (D : ℚ) :
    ∀ (inputs : List InputFrame),
      (∀ f ∈ inputs, ∀ data, f.data = some data → ∀ b ∈ data, b < 256) →
    ∀ (s : DecoderState) (s2 : DecoderState) (rs : List (Option AnalyzerResult)),
      s.lastPacketRegisterAddress < 2 ^ 16 → s.lastPacketChecksum < 2 ^ 16 →
      analyzer.run D s inputs = Except.ok (s2, rs) →
      s2.lastPacketRegisterAddress < 2 ^ 16 ∧ s2.lastPacketChecksum < 2 ^ 16
  | [], _, s, s2, rs, hreg, hcrc, heq => by
    simp only [analyzer.run] at heq
    cases heq
    exact ⟨hreg, hcrc⟩
  | f :: fs, hin, s, s2, rs, hreg, hcrc, heq => by
    rw [analyzer.run] at heq
    rcases hdec : analyzer.decode D s f with e | p
    · simp only [hdec] at heq
      cases heq
    · rcases p with ⟨sMid, rMid⟩
      simp only [hdec] at heq
      have hMid := analyzer.decode_bounds D s f
        (fun data hd b hb => hin f (List.mem_cons_self f fs) data hd b hb)
        sMid rMid hreg hcrc hdec
      rcases hrun : analyzer.run D sMid fs with e | q
      · simp only [hrun] at heq
        cases heq
      · rcases q with ⟨sEnd, rsEnd⟩
        simp only [hrun] at heq
        cases heq
        exact analyzer.run_bounds D fs
          (fun g hg => hin g (List.mem_cons_of_mem f hg))
          sMid _ rsEnd hMid.1 hMid.2 hrun

/-- The byte loop of `Hla.onReceived` keeps the register address and
checksum below `2 ^ 16` whenever the incoming bytes are below `256`. -/
theorem Hla.processBytes_bounds (f : InputFrame) (data : List Nat)
    (hdata : ∀ b ∈ data, b < 256) (s : DecoderState)
    (s2 : DecoderState) (r2 : Option AnalyzerResult)
    (hreg : s.lastPacketRegisterAddress < 2 ^ 16)
    (hcrc : s.lastPacketChecksum < 2 ^ 16)
    (heq : Hla.processBytes f s data = Except.ok (s2, r2)) :
    s2.lastPacketRegisterAddress < 2 ^ 16 ∧ s2.lastPacketChecksum < 2 ^ 16 := by
  rcases data with _ | ⟨b, rest⟩
  · simp only [Hla.processBytes] at heq
    cases heq
    exact ⟨hreg, hcrc⟩
  · have hb : b < 256 := hdata b (List.mem_cons_self b rest)
    rw [Hla.processBytes] at heq
    rcases hstate : s.currentState <;> simp only [hstate] at heq
    · cases heq
      have hz1 := headerStep_registerAddress s b f.startTime
      have hz2 := headerStep_checksum s b f.startTime
      omega
    · cases heq
      exact ⟨hreg, hcrc⟩
    · cases heq
      exact ⟨byte_shift_lt b hb, hcrc⟩
    · cases heq
      exact ⟨Nat.or_lt_two_pow hreg (by omega), hcrc⟩
    · cases heq
      exact ⟨hreg, hcrc⟩
    · cases heq
      exact ⟨hreg, byte_shift_lt b hb⟩
    · rcases hfmt : Hla.emitFrame (crc2Step s b) f with e | rr <;>
        rw [hfmt] at heq
      · cases heq
      · cases heq
        exact ⟨hreg, Nat.or_lt_two_pow hcrc (by omega)⟩

/-- One `Hla` call keeps the register address and checksum below `2 ^ 16`. -/
theorem Hla.hla_decode_bounds (s : DecoderState) (f : InputFrame)
    (hdata : ∀ data, f.data = some data → ∀ b ∈ data, b < 256)
    (s2 : DecoderState) (r2 : Option AnalyzerResult)
    (hreg : s.lastPacketRegisterAddress < 2 ^ 16)
    (hcrc : s.lastPacketChecksum < 2 ^ 16)
    (heq : Hla.decode s f = Except.ok (s2, r2)) :
    s2.lastPacketRegisterAddress < 2 ^ 16 ∧ s2.lastPacketChecksum < 2 ^ 16 := by
  rw [Hla.decode] at heq
  split at heq
  · cases heq
    exact ⟨hreg, hcrc⟩
  · split at heq
    · cases heq
      exact ⟨hreg, hcrc⟩
    · rcases hd : f.data with _ | data
      · simp only [Hla.onReceived, hd] at heq
        cases heq
        exact ⟨hreg, hcrc⟩
      · have hbytes : ∀ b ∈ data, b < 256 := hdata data hd
        simp only [Hla.onReceived, hd] at heq
        by_cases hs : s.currentState ≠ TransferState.WAIT_INIT
        · rw [if_pos hs] at heq
          rcases ht : s.lastPacketTime with _ | t
          · simp only [ht] at heq
            cases heq
          · simp only [ht] at heq
            split at heq
            · cases heq
              exact ⟨hreg, hcrc⟩
            · exact Hla.processBytes_bounds f data hbytes s s2 r2 hreg hcrc heq
        · rw [if_neg hs] at heq
          exact Hla.processBytes_bounds f data hbytes s s2 r2 hreg hcrc heq

/-- Driving `Hla` keeps the register address and checksum below `2 ^ 16`
from any state already satisfying the bounds. -/
theorem Hla.hla_run_bounds :
    ∀ (inputs : List InputFrame),
      (∀ f ∈ inputs, ∀ data, f.data = some data → ∀ b ∈ data, b < 256) →
    ∀ (s : DecoderState) (s2 : DecoderState) (rs : List (Option AnalyzerResult)),
      s.lastPacketRegisterAddress < 2 ^ 16 → s.lastPacketChecksum < 2 ^ 16 →
      Hla.run s inputs = Except.ok (s2, rs) →
      s2.lastPacketRegisterAddress < 2 ^ 16 ∧ s2.lastPacketChecksum < 2 ^ 16
  | [], _, s, s2, rs, hreg, hcrc, heq => by
    simp only [Hla.run] at heq
    cases heq
    exact ⟨hreg, hcrc⟩
  | f :: fs, hin, s, s2, rs, hreg, hcrc, heq => by
    rw [Hla.run] at heq
    rcases hdec : Hla.decode s f with e | p
    · simp only [hdec] at heq
      cases heq
    · rcases p with ⟨sMid, rMid⟩
      simp only [hdec] at heq
      have hMid := Hla.hla_decode_bounds s f
        (fun data hd b hb => hin f (List.mem_cons_self f fs) data hd b hb)
        sMid rMid hreg hcrc hdec
      rcases hrun : Hla.run sMid fs with e | q
      · simp only [hrun] at heq
        cases heq
      · rcases q with ⟨sEnd, rsEnd⟩
        simp only [hrun] at heq
        cases heq
        exact Hla.hla_run_bounds fs
          (fun g hg => hin g (List.mem_cons_of_mem f hg))
          sMid _ rsEnd hMid.1 hMid.2 hrun

/-- C10: on any input trace whose bytes are in `0..255`, every state either
decoder reaches keeps the stored register address and checksum strictly
below `2 ^ 16`: each is assembled by storing one byte shifted left by eight
and then OR-ing in one further byte.  The first two conjuncts give the
bound for every run of calls from a fresh decoder; the last two give the
single-byte assembly facts the invariant rests on. -/
theorem c10_sixteen_bit_bounds (D : ℚ) (inputs : List InputFrame)
    (hin : ∀ f ∈ inputs, ∀ data, f.data = some data → ∀ b ∈ data, b < 256) :
    (∀ s2 rs, analyzer.run D initState inputs = Except.ok (s2, rs) →
      s2.lastPacketRegisterAddress < 2 ^ 16 ∧ s2.lastPacketChecksum < 2 ^ 16)
  ∧ (∀ s2 rs, Hla.run initState inputs = Except.ok (s2, rs) →
      s2.lastPacketRegisterAddress < 2 ^ 16 ∧ s2.lastPacketChecksum < 2 ^ 16)
  ∧ (∀ s b, b < 256 → (regAddr1Step s b).lastPacketRegisterAddress < 2 ^ 16
      ∧ (crc1Step s b).lastPacketChecksum < 2 ^ 16)
  ∧ (∀ s b, b < 256 → s.lastPacketRegisterAddress < 2 ^ 16 →
      s.lastPacketChecksum < 2 ^ 16 →
      (regAddr2Step s b).lastPacketRegisterAddress < 2 ^ 16
      ∧ (crc2Step s b).lastPacketChecksum < 2 ^ 16) := by
  refine ⟨?_, ?_, ?_, ?_⟩
  · intro s2 rs heq
    exact analyzer.run_bounds D inputs hin initState s2 rs (by decide) (by decide) heq
  · intro s2 rs heq
    exact Hla.hla_run_bounds inputs hin initState s2 rs (by decide) (by decide) heq
  · intro s b hb
    exact ⟨byte_shift_lt b hb, byte_shift_lt b hb⟩
  · intro s b hb hreg hcrc
    exact ⟨Nat.or_lt_two_pow hreg (by omega), Nat.or_lt_two_pow hcrc (by omega)⟩

/-- C10, witness: the bounds hold at the state reached by a header and a
device-address byte. -/
theorem c10_witness :
    (⟨TransferState.WAIT_REG_ADDR_1, 0x80, some 0, 0, "", 1, 0x10, 0xAB, 0⟩ :
        DecoderState).lastPacketRegisterAddress < 2 ^ 16
  ∧ (⟨TransferState.WAIT_REG_ADDR_1, 0x80, some 0, 0, "", 1, 0x10, 0xAB, 0⟩ :
        DecoderState).lastPacketChecksum < 2 ^ 16 :=
  (c10_sixteen_bit_bounds 1 [byteChunk 0x90 0 0, byteChunk 0xAB 0 0]
    (by decide)).1
    ⟨TransferState.WAIT_REG_ADDR_1, 0x80, some 0, 0, "", 1, 0x10, 0xAB, 0⟩
    [none, none]
    (by
      have h1 : ¬((0 : ℚ) + 1 < 0) := by norm_num
      simp +decide [analyzer.run, analyzer.decode, analyzer.onReceived,
        analyzer.loopBytes, headerStep, devAddrStep, initPacket, byteChunk,
        initState, h1])

/-- The header step discards the previous packet completely (`initPacket`
overwrites every packet attribute and the branch taken fixes
`currentState`), so its result does not depend on the incoming state. -/
theorem headerStep_independent (s1 s2 : DecoderState) (b : Nat) (t : ℚ) :
    headerStep s1 b t = headerStep s2 b t := by
  by_cases hbit : b &&& FRAME_TYPE_MASK = COMMAND_FRAME <;>
    simp [headerStep, initPacket, hbit]

/-- From `WAIT_INIT`, one `analyzer` call either ignores the frame (state
returned untouched, no result) or produces a state and result that do not
depend on anything but the frame itself. -/
theorem analyzer.decode_init_bisim (D : ℚ) (s1 s2 : DecoderState) (f : InputFrame)
    (h1 : s1.currentState = TransferState.WAIT_INIT)
    (h2 : s2.currentState = TransferState.WAIT_INIT) :
    (analyzer.decode D s1 f = Except.ok (s1, none)
      ∧ analyzer.decode D s2 f = Except.ok (s2, none))
  ∨ (∃ s3 r, analyzer.decode D s1 f = Except.ok (s3, r)
      ∧ analyzer.decode D s2 f = Except.ok (s3, r)) := by
  by_cases hft : f.ftype ≠ "data"
  · exact Or.inl ⟨by simp [analyzer.decode, hft], by simp [analyzer.decode, hft]⟩
  · by_cases herr : f.hasError
    · exact Or.inl ⟨by simp [analyzer.decode, hft, herr],
                    by simp [analyzer.decode, hft, herr]⟩
    · rcases hd : f.data with _ | data
      · exact Or.inl ⟨by simp [analyzer.decode, analyzer.onReceived, hft, herr, hd],
                      by simp [analyzer.decode, analyzer.onReceived, hft, herr, hd]⟩
      · rcases data with _ | ⟨b, rest⟩
        · exact Or.inl
            ⟨by simp [analyzer.decode, analyzer.onReceived, analyzer.loopBytes,
                      hft, herr, hd, h1],
             by simp [analyzer.decode, analyzer.onReceived, analyzer.loopBytes,
                      hft, herr, hd, h2]⟩
        · refine Or.inr ⟨headerStep s1 b f.startTime, none, ?_, ?_⟩
          · simp [analyzer.decode, analyzer.onReceived, analyzer.loopBytes,
                  hft, herr, hd, h1]
          · rw [headerStep_independent s1 s2 b f.startTime]
            simp [analyzer.decode, analyzer.onReceived, analyzer.loopBytes,
                  hft, herr, hd, h2]

/-- From `WAIT_INIT`, one `Hla` call either ignores the frame or produces a
state and result that do not depend on anything but the frame itself. -/
theorem Hla.hla_decode_init_bisim (s1 s2 : DecoderState) (f : InputFrame)
    (h1 : s1.currentState = TransferState.WAIT_INIT)
    (h2 : s2.currentState = TransferState.WAIT_INIT) :
    (Hla.decode s1 f = Except.ok (s1, none)
      ∧ Hla.decode s2 f = Except.ok (s2, none))
  ∨ (∃ s3 r, Hla.decode s1 f = Except.ok (s3, r)
      ∧ Hla.decode s2 f = Except.ok (s3, r)) := by
  by_cases hft : f.ftype ≠ "data"
  · exact Or.inl ⟨by simp [Hla.decode, hft], by simp [Hla.decode, hft]⟩
  · by_cases herr : f.hasError
    · exact Or.inl ⟨by simp [Hla.decode, hft, herr],
                    by simp [Hla.decode, hft, herr]⟩
    · rcases hd : f.data with _ | data
      · exact Or.inl ⟨by simp [Hla.decode, Hla.onReceived, hft, herr, hd],
                      by simp [Hla.decode, Hla.onReceived, hft, herr, hd]⟩
      · rcases data with _ | ⟨b, rest⟩
        · exact Or.inl
            ⟨by simp [Hla.decode, Hla.onReceived, Hla.processBytes, hft, herr, hd, h1],
             by simp [Hla.decode, Hla.onReceived, Hla.processBytes, hft, herr, hd, h2]⟩
        · refine Or.inr ⟨headerStep s1 b f.startTime, none, ?_, ?_⟩
          · simp [Hla.decode, Hla.onReceived, Hla.processBytes, hft, herr, hd, h1]
          · rw [headerStep_independent s1 s2 b f.startTime]
            simp [Hla.decode, Hla.onReceived, Hla.processBytes, hft, herr, hd, h2]

/-- Two `analyzer` decoders that are both in `WAIT_INIT` produce identical
result traces on every future input sequence, whatever their stale packet
fields hold. -/
theorem analyzer.run_outputs_eq (D : ℚ) :
    ∀ (inputs : List InputFrame) (s1 s2 : DecoderState),
      s1.currentState = TransferState.WAIT_INIT →
      s2.currentState = TransferState.WAIT_INIT →
      Except.map Prod.snd (analyzer.run D s1 inputs) =
        Except.map Prod.snd (analyzer.run D s2 inputs)
  | [], s1, s2, h1, h2 => by simp [analyzer.run, Except.map]
  | f :: fs, s1, s2, h1, h2 => by
    rcases analyzer.decode_init_bisim D s1 s2 f h1 h2 with ⟨e1, e2⟩ | ⟨s3, r, e1, e2⟩
    · have ih := analyzer.run_outputs_eq D fs s1 s2 h1 h2
      simp only [analyzer.run, e1, e2]
      rcases hr1 : analyzer.run D s1 fs with e1' | p1 <;>
        rcases hr2 : analyzer.run D s2 fs with e2' | p2 <;>
          simp only [hr1, hr2, Except.map] at ih ⊢ <;> simp_all
    · simp only [analyzer.run, e1, e2]

/-- Two `Hla` decoders that are both in `WAIT_INIT` produce identical
result traces on every future input sequence. -/
theorem Hla.hla_run_outputs_eq :
    ∀ (inputs : List InputFrame) (s1 s2 : DecoderState),
      s1.currentState = TransferState.WAIT_INIT →
      s2.currentState = TransferState.WAIT_INIT →
      Except.map Prod.snd (Hla.run s1 inputs) =
        Except.map Prod.snd (Hla.run s2 inputs)
  | [], s1, s2, h1, h2 => by simp [Hla.run, Except.map]
  | f :: fs, s1, s2, h1, h2 => by
    rcases Hla.hla_decode_init_bisim s1 s2 f h1 h2 with ⟨e1, e2⟩ | ⟨s3, r, e1, e2⟩
    · have ih := Hla.hla_run_outputs_eq fs s1 s2 h1 h2
      simp only [Hla.run, e1, e2]
      rcases hr1 : Hla.run s1 fs with e1' | p1 <;>
        rcases hr2 : Hla.run s2 fs with e2' | p2 <;>
          simp only [hr1, hr2, Except.map] at ih ⊢ <;> simp_all
    · simp only [Hla.run, e1, e2]

/-- If the `analyzer` byte loop returns a result, the final state is
`WAIT_INIT` (the only emitting branch, `WAIT_CRC_2`, resets the state
before storing the result). -/
theorem analyzer.loopBytes_emit_init (f : InputFrame) :
    ∀ (data : List Nat) (s : DecoderState) (r0 : Option AnalyzerResult)
      (s2 : DecoderState) (r : AnalyzerResult),
      (∀ x, r0 = some x → s.currentState = TransferState.WAIT_INIT) →
      analyzer.loopBytes f s r0 data = Except.ok (s2, some r) →
      s2.currentState = TransferState.WAIT_INIT
  | [], s, r0, s2, r, hr0, heq => by
    simp only [analyzer.loopBytes] at heq
    cases heq
    exact hr0 r rfl
  | b :: rest, s, r0, s2, r, hr0, heq => by
    rw [analyzer.loopBytes] at heq
    rcases hstate : s.currentState <;> simp only [hstate] at heq
    · cases heq
    · cases heq
    · cases heq
    · cases heq
    · cases heq
    · cases heq
    · rcases hfmt : analyzer.formatResult (crc2Step s b) f with e | rr <;>
        rw [hfmt] at heq
      · cases heq
      · exact analyzer.loopBytes_emit_init f rest (crc2Step s b) (some rr) s2 r
          (fun x _ => rfl) heq

/-- If the `Hla` byte loop returns a result, the final state is
`WAIT_INIT`. -/
theorem Hla.processBytes_emit_init (f : InputFrame) (data : List Nat)
    (s : DecoderState) (s2 : DecoderState) (r : AnalyzerResult)
    (heq : Hla.processBytes f s data = Except.ok (s2, some r)) :
    s2.currentState = TransferState.WAIT_INIT := by
  rcases data with _ | ⟨b, rest⟩
  · simp only [Hla.processBytes] at heq
    cases heq
  · rw [Hla.processBytes] at heq
    rcases hstate : s.currentState <;> simp only [hstate] at heq
    · cases heq
    · cases heq
    · cases heq
    · cases heq
    · cases heq
    · cases heq
    · rcases hfmt : Hla.emitFrame (crc2Step s b) f with e | rr <;> rw [hfmt] at heq
      · cases heq
      · cases heq
        rfl

/-- Any emitting `analyzer.onReceived` call leaves the state `WAIT_INIT`. -/
theorem analyzer.onReceived_emit_init (D : ℚ) (s : DecoderState) (f : InputFrame)
    (s2 : DecoderState) (r : AnalyzerResult)
    (heq : analyzer.onReceived D s f = Except.ok (s2, some r)) :
    s2.currentState = TransferState.WAIT_INIT := by
  rw [analyzer.onReceived] at heq
  rcases hd : f.data with _ | data
  · simp only [hd] at heq
    cases heq
  · simp only [hd] at heq
    by_cases hs : s.currentState ≠ TransferState.WAIT_INIT
    · rw [if_pos hs] at heq
      rcases ht : s.lastPacketTime with _ | t
      · simp only [ht] at heq
        cases heq
      · simp only [ht] at heq
        split at heq
        · cases heq
          rfl
        · exact analyzer.loopBytes_emit_init f data s none s2 r
            (fun x hx => by cases hx) heq
    · rw [if_neg hs] at heq
      exact analyzer.loopBytes_emit_init f data s none s2 r
        (fun x hx => by cases hx) heq

/-- Any emitting `Hla.onReceived` call leaves the state `WAIT_INIT`. -/
theorem Hla.hla_onReceived_emit_init (s : DecoderState) (f : InputFrame)
    (s2 : DecoderState) (r : AnalyzerResult)
    (heq : Hla.onReceived s f = Except.ok (s2, some r)) :
    s2.currentState = TransferState.WAIT_INIT := by
  rw [Hla.onReceived] at heq
  rcases hd : f.data with _ | data
  · simp only [hd] at heq
    cases heq
  · simp only [hd] at heq
    by_cases hs : s.currentState ≠ TransferState.WAIT_INIT
    · rw [if_pos hs] at heq
      rcases ht : s.lastPacketTime with _ | t
      · simp only [ht] at heq
        cases heq
      · simp only [ht] at heq
        split at heq
        · cases heq
          rfl
        · exact Hla.processBytes_emit_init f data s s2 r heq
    · rw [if_neg hs] at heq
      exact Hla.processBytes_emit_init f data s s2 r heq

/-- C8, amended: after any call that returns a completed `Frame` or an
`Error` result, either decoder's `currentState` is `WAIT_INIT`; the stale
packet attributes are not restored to their construction-time values (see
the counterexample), but they never influence later behavior: a decoder in
`WAIT_INIT` produces exactly the result trace of a freshly constructed
decoder on every future input sequence, so the next header byte is indeed
interpreted independently of all prior history. -/
theorem c8_resync_behavioral (D : ℚ) (s : DecoderState) (f : InputFrame)
    (inputs : List InputFrame) :
    (∀ s2 r, analyzer.onReceived D s f = Except.ok (s2, some r) →
        s2.currentState = TransferState.WAIT_INIT)
  ∧ (∀ s2 r, Hla.onReceived s f = Except.ok (s2, some r) →
        s2.currentState = TransferState.WAIT_INIT)
  ∧ (s.currentState = TransferState.WAIT_INIT →
      Except.map Prod.snd (analyzer.run D s inputs) =
        Except.map Prod.snd (analyzer.run D initState inputs))
  ∧ (s.currentState = TransferState.WAIT_INIT →
      Except.map Prod.snd (Hla.run s inputs) =
        Except.map Prod.snd (Hla.run initState inputs)) :=
  ⟨fun s2 r heq => analyzer.onReceived_emit_init D s f s2 r heq,
   fun s2 r heq => Hla.hla_onReceived_emit_init s f s2 r heq,
   fun hs => analyzer.run_outputs_eq D inputs s initState hs rfl,
   fun hs => Hla.hla_run_outputs_eq inputs s initState hs rfl⟩

/-- C8, witness: the stale state left behind by the completed frame of the
counterexample behaves exactly like a fresh decoder on a further header. -/
theorem c8_witness :
    Except.map Prod.snd
        (analyzer.run 1 ⟨TransferState.WAIT_INIT, 0x80, some 0, 0, "0xFF ", 0, 0x10, 5, 0x2A⟩
          [byteChunk 0x90 0 0]) =
      Except.map Prod.snd (analyzer.run 1 initState [byteChunk 0x90 0 0]) :=
  (c8_resync_behavioral 1 ⟨TransferState.WAIT_INIT, 0x80, some 0, 0, "0xFF ", 0, 0x10, 5, 0x2A⟩
    (byteChunk 0x90 0 0) [byteChunk 0x90 0 0]).2.2.1 rfl

/-- The hexadecimal rendering of `n < 16 ^ k` (with `1 ≤ k`) takes at most
`k` digits, for any fuel. -/
theorem natToHexCore_length (dig : Nat → Char) :
    ∀ (fuel n k : Nat), n < 16 ^ k → 1 ≤ k →
      (natToHexCore dig fuel n).length ≤ k
  | 0, n, k, _, hk => by
    simpa [natToHexCore] using hk
  | fuel + 1, n, k, hn, hk => by
    rw [natToHexCore]
    split
    · simpa using hk
    · rename_i hge
      have h16 : 16 ≤ n := by omega
      have hk2 : 2 ≤ k := by
        by_contra hcon
        have hk1 : k = 1 := by omega
        rw [hk1] at hn
        simp at hn
        omega
      have hdiv : n / 16 < 16 ^ (k - 1) := by
        have hpow : 16 ^ k = 16 ^ (k - 1) * 16 := by
          have : k - 1 + 1 = k := by omega
          calc 16 ^ k = 16 ^ (k - 1 + 1) := by rw [this]
            _ = 16 ^ (k - 1) * 16 := by rw [pow_succ]
        exact Nat.div_lt_of_lt_mul (by omega)
      have ih := natToHexCore_length dig fuel (n / 16) (k - 1) hdiv (by omega)
      rw [String.length_append]
      have hsing : (String.singleton (dig (n % 16))).length = 1 := rfl
      omega

/-- Padding a string not longer than `w` yields length exactly `w`. -/
theorem pad0_length (w : Nat) (s : String) (h : s.length ≤ w) :
    (pad0 w s).length = w := by
  rw [pad0]
  split
  · rw [String.length_append]
    have : (String.mk (List.replicate (w - s.length) (Char.ofNat 48))).length
        = w - s.length := List.length_replicate _ _
    omega
  · omega

/-- The `{:04X}` rendering of a sixteen-bit value is exactly four hex
digits. -/
theorem fmt04X_length (n : Nat) (h : n < 2 ^ 16) : (fmt04X n).length = 4 := by
  have hn : n < 16 ^ 4 := by norm_num at h ⊢; omega
  exact pad0_length 4 (natToHexUpper n)
    (natToHexCore_length hexDigitUpper n n 4 hn (by omega))

/-- C4, counterexample: the claim quantifies over every configured timeout
`D`; for `HighLevelAnalyzer.py` with `D = 0`, an in-progress transfer whose
last header arrived at `0` receives a chunk ending at `1/200 > 0 + D`, yet
no `TransferTimeout` is emitted — the byte is interpreted as protocol data
(the decoder advances to `WAIT_REG_ADDR_1` and stores it as the device
address), because the code compares against the hard-coded `0.01` rather
than the configured timeout. -/
theorem c4_counterexample :
    Hla.onReceived ⟨TransferState.WAIT_DEV_ADDR, 0x80, some 0, 0, "", 1, 0x10, 0, 0⟩
        (byteChunk 0x05 (1 / 200) (1 / 200)) =
      Except.ok (⟨TransferState.WAIT_REG_ADDR_1, 0x80, some 0, 0, "", 1, 0x10, 5, 0⟩,
                 none)
  ∧ ((0 : ℚ) + 0 < 1 / 200) := by
  have h1 : ¬((0 : ℚ) + 1 / 100 < 1 / 200) := by norm_num
  constructor
  · simp [Hla.onReceived, Hla.processBytes, devAddrStep, byteChunk, h1]
    norm_num
  · norm_num

/-- C5, amended: the claim holds of the `analyzer.py` emitter (the `Hla`
variant always includes a `device_address` field and renders addresses with
minimal-width `hex`, see the counterexample).  The message `formatResult`
builds renders the register address as `0x` plus exactly four hex digits,
and contains the `Device:` field exactly when the packet is a Response or a
Single Device Read/Write command — which, by the last conjunct, is exactly
the condition under which the header routes through `WAIT_DEV_ADDR`, i.e.
under which a device-address byte is consumed. -/
theorem c5_formatting_amended (s : DecoderState) (f : InputFrame) (t : ℚ)
    (ht : s.lastPacketTime = some t)
    (hreg : s.lastPacketRegisterAddress < 2 ^ 16) :
    (fmt04X s.lastPacketRegisterAddress).length = 4
  ∧ (∀ ct, s.lastPacketType = COMMAND_FRAME →
      commandTypeMap s.lastPacketCommandType = some ct →
      (s.lastPacketCommandType = SINGLE_DEVICE_WRITE ∨
       s.lastPacketCommandType = SINGLE_DEVICE_READ) →
      analyzer.formatResult s f = Except.ok
        { rtype := "frame", startTime := t, endTime := f.endTime,
          fields := [("message",
            "Command - " ++ ct ++ " " ++ "Device: 0x"
              ++ fmt04X s.lastPacketDeviceAddress ++ " " ++ "Register: 0x"
              ++ fmt04X s.lastPacketRegisterAddress ++ " Data: "
              ++ s.lastPacketData)] })
  ∧ (∀ ct, s.lastPacketType = COMMAND_FRAME →
      commandTypeMap s.lastPacketCommandType = some ct →
      ¬(s.lastPacketCommandType = SINGLE_DEVICE_WRITE ∨
        s.lastPacketCommandType = SINGLE_DEVICE_READ) →
      analyzer.formatResult s f = Except.ok
        { rtype := "frame", startTime := t, endTime := f.endTime,
          fields := [("message",
            "Command - " ++ ct ++ " " ++ "Register: 0x"
              ++ fmt04X s.lastPacketRegisterAddress ++ " Data: "
              ++ s.lastPacketData)] })
  ∧ (s.lastPacketType = RESPONSE_FRAME →
      analyzer.formatResult s f = Except.ok
        { rtype := "frame", startTime := t, endTime := f.endTime,
          fields := [("message",
            "Response - " ++ "Device: 0x" ++ fmt04X s.lastPacketDeviceAddress
              ++ " " ++ "Register: 0x" ++ fmt04X s.lastPacketRegisterAddress
              ++ " Data: " ++ s.lastPacketData)] })
  ∧ (∀ b, b < 256 →
      ((headerStep s b t).currentState = TransferState.WAIT_DEV_ADDR ↔
        (b &&& FRAME_TYPE_MASK = 0
          ∨ b &&& REQ_TYPE_MASK = SINGLE_DEVICE_READ
          ∨ b &&& REQ_TYPE_MASK = SINGLE_DEVICE_WRITE))) := by
  refine ⟨fmt04X_length _ hreg, ?_, ?_, ?_, ?_⟩
  · intro ct htype hct hdev
    simp [analyzer.formatResult, frameTypeMap, htype, hct, hdev, ht,
      COMMAND_FRAME, RESPONSE_FRAME]
  · intro ct htype hct hdev
    simp [analyzer.formatResult, frameTypeMap, htype, hct, hdev, ht,
      COMMAND_FRAME, RESPONSE_FRAME]
  · intro htype
    simp [analyzer.formatResult, frameTypeMap, htype, ht,
      COMMAND_FRAME, RESPONSE_FRAME]
  · intro b _hb
    by_cases hbit : b &&& FRAME_TYPE_MASK = COMMAND_FRAME
    · have hbit0 : ¬(b &&& FRAME_TYPE_MASK = 0) := by
        rw [hbit]
        decide
      by_cases hcmd : b &&& REQ_TYPE_MASK = SINGLE_DEVICE_READ
          ∨ b &&& REQ_TYPE_MASK = SINGLE_DEVICE_WRITE
      · simp [headerStep, initPacket, hbit, hcmd, hbit0, COMMAND_FRAME]
      · simp [headerStep, initPacket, hbit, hcmd, hbit0, COMMAND_FRAME]
    · have hbit0 : b &&& FRAME_TYPE_MASK = 0 := by
        have h2p : b &&& FRAME_TYPE_MASK = (b.testBit 7).toNat * 128 := by
          have := Nat.and_two_pow b 7
          rw [FRAME_TYPE_MASK]
          norm_num at this
          omega
        have hcase : b &&& FRAME_TYPE_MASK = 0 ∨ b &&& FRAME_TYPE_MASK = 128 := by
          rcases hbt : b.testBit 7 with _ | _ <;> simp [h2p, hbt]
        rcases hcase with h0 | h0
        · exact h0
        · rw [COMMAND_FRAME] at hbit
          exact absurd h0 hbit
      simp [headerStep, initPacket, hbit, hbit0, COMMAND_FRAME]

/-- C5, witness: the packet state left by scenario 1 formats to the
expected message with a 4-hex-digit register and a device field. -/
theorem c5_witness :
    analyzer.formatResult
        ⟨TransferState.WAIT_INIT, 0x80, some 0, 0, "0xFF ", 0, 0x10, 5, 0x2A⟩
        (byteChunk 0 0 0) =
      Except.ok
        { rtype := "frame", startTime := 0, endTime := 0,
          fields := [("message",
            "Command - Single Device Write Device: 0x0005 Register: 0x002A Data: 0xFF ")] } :=
  (c5_formatting_amended
    ⟨TransferState.WAIT_INIT, 0x80, some 0, 0, "0xFF ", 0, 0x10, 5, 0x2A⟩
    (byteChunk 0 0 0) 0 rfl (by decide)).2.1 "Single Device Write" rfl (by decide)
    (Or.inl rfl)

/-- A single-byte `data` chunk received in `WAIT_INIT` decodes the header
(no timeout check is reached). -/
theorem analyzer.decode_byte_init (D : ℚ) (s : DecoderState) (b : Nat) (t0 t1 : ℚ)
    (hs : s.currentState = TransferState.WAIT_INIT) :
    analyzer.decode D s (byteChunk b t0 t1) =
      Except.ok (headerStep s b t0, none) := by
  simp [analyzer.decode, analyzer.onReceived, analyzer.loopBytes, byteChunk, hs]

/-- A single-byte `data` chunk received during a transfer that has not
timed out is handed to the byte loop. -/
theorem analyzer.decode_byte_inTime (D : ℚ) (s : DecoderState) (b : Nat)
    (t0 t1 t : ℚ)
    (hs : s.currentState ≠ TransferState.WAIT_INIT)
    (ht : s.lastPacketTime = some t)
    (hto : ¬(t + D < t1)) :
    analyzer.decode D s (byteChunk b t0 t1) =
      analyzer.loopBytes (byteChunk b t0 t1) s none [b] := by
  simp [analyzer.decode, analyzer.onReceived, byteChunk, hs, ht, hto]

/-- Unfolding one successful call at the head of a run. -/
theorem analyzer.run_cons (D : ℚ) (s : DecoderState) (f : InputFrame)
    (fs : List InputFrame) (s2 : DecoderState) (r : Option AnalyzerResult)
    (s3 : DecoderState) (rs : List (Option AnalyzerResult))
    (h1 : analyzer.decode D s f = Except.ok (s2, r))
    (h2 : analyzer.run D s2 fs = Except.ok (s3, rs)) :
    analyzer.run D s (f :: fs) = Except.ok (s3, r :: rs) := by
  simp only [analyzer.run, h1, h2]

/-- Composing two successful runs over concatenated inputs. -/
theorem analyzer.run_append_ok (D : ℚ) :
    ∀ (xs : List InputFrame) (ys : List InputFrame) (s s2 s3 : DecoderState)
      (rs rs2 : List (Option AnalyzerResult)),
      analyzer.run D s xs = Except.ok (s2, rs) →
      analyzer.run D s2 ys = Except.ok (s3, rs2) →
      analyzer.run D s (xs ++ ys) = Except.ok (s3, rs ++ rs2)
  | [], ys, s, s2, s3, rs, rs2, h1, h2 => by
    simp only [analyzer.run] at h1
    cases h1
    simpa using h2
  | x :: xs, ys, s, s2, s3, rs, rs2, h1, h2 => by
    rw [analyzer.run] at h1
    rcases hdec : analyzer.decode D s x with e | p
    · rw [hdec] at h1
      cases h1
    · rcases p with ⟨sm, r⟩
      simp only [hdec] at h1
      rcases hrun : analyzer.run D sm xs with e | q
      · rw [hrun] at h1
        cases h1
      · rcases q with ⟨sm2, rs1⟩
        simp only [hrun] at h1
        cases h1
        exact analyzer.run_cons D s x (xs ++ ys) sm r s3 _ hdec
          (analyzer.run_append_ok D xs ys sm _ s3 _ rs2 hrun h2)

/-- Feeding a non-empty payload one byte per chunk from `WAIT_DATA`, with
every chunk inside the timeout window measured from the frame start `t`,
appends the formatted bytes in order, counts the size down to zero, and
ends in `WAIT_CRC_1`, producing no result. -/
theorem analyzer.run_payload (D : ℚ) (t : ℚ) :
    ∀ (payload : List Nat) (ts : List (ℚ × ℚ)) (s : DecoderState),
      payload ≠ [] →
      ts.length = payload.length →
      (∀ p ∈ ts, ¬(t + D < p.2)) →
      s.currentState = TransferState.WAIT_DATA →
      s.lastPacketTime = some t →
      s.lastPacketDataSize = (payload.length : Int) →
      analyzer.run D s (List.zipWith (fun b p => byteChunk b p.1 p.2) payload ts) =
        Except.ok
          ({ s with
              currentState := TransferState.WAIT_CRC_1,
              lastPacketData := s.lastPacketData ++ renderUpper payload,
              lastPacketDataSize := 0 },
            List.replicate payload.length none)
  | [], _, _, hne, _, _, _, _, _ => absurd rfl hne
  | b :: rest, [], s, _, hlen, _, _, _, _ => by simp at hlen
  | b :: rest, p :: ps, s, _, hlen, hts, hs, ht, hsize => by
    have hto : ¬(t + D < p.2) := hts p (List.mem_cons_self p ps)
    have hdec : analyzer.decode D s (byteChunk b p.1 p.2) =
        Except.ok (dataStepWith fmt02X s b, none) := by
      rw [analyzer.decode_byte_inTime D s b p.1 p.2 t (by rw [hs]; decide) ht hto]
      simp [analyzer.loopBytes, hs]
    rcases rest with _ | ⟨b2, rest2⟩
    · have hps : ps = [] := by
        simpa using hlen
      subst hps
      simp only [List.zipWith]
      have hstate : dataStepWith fmt02X s b = { s with
          currentState := TransferState.WAIT_CRC_1,
          lastPacketData := s.lastPacketData ++ renderUpper [b],
          lastPacketDataSize := 0 } := by
        rw [dataStepWith]
        have h0 : s.lastPacketDataSize - 1 = 0 := by
          rw [hsize]
          simp
        simp [h0, renderUpper, String.append_assoc]
      rw [hstate] at hdec
      exact analyzer.run_cons D s _ [] _ none _ [] hdec rfl
    · have hlen2 : ps.length = (b2 :: rest2).length := by
        simpa using hlen
      have hts2 : ∀ q ∈ ps, ¬(t + D < q.2) :=
        fun q hq => hts q (List.mem_cons_of_mem p hq)
      have hstep : dataStepWith fmt02X s b = { s with
          lastPacketData := s.lastPacketData ++ "0x" ++ fmt02X b ++ " ",
          lastPacketDataSize := s.lastPacketDataSize - 1,
          currentState := s.currentState } := by
        rw [dataStepWith]
        have : ¬(s.lastPacketDataSize - 1 ≤ 0) := by
          rw [hsize]
          simp only [List.length_cons]
          push_cast
          omega
        simp [this]
      have ih := analyzer.run_payload D t (b2 :: rest2) ps (dataStepWith fmt02X s b)
        (by simp) hlen2 hts2 (by rw [hstep]; exact hs) (by rw [hstep]; exact ht)
        (by rw [hstep]
            simp only [hsize, List.length_cons]
            push_cast
            omega)
      have hA : ({ dataStepWith fmt02X s b with
          currentState := TransferState.WAIT_CRC_1,
          lastPacketData := (dataStepWith fmt02X s b).lastPacketData
            ++ renderUpper (b2 :: rest2),
          lastPacketDataSize := 0 } : DecoderState) =
        { s with
          currentState := TransferState.WAIT_CRC_1,
          lastPacketData := s.lastPacketData ++ renderUpper (b :: b2 :: rest2),
          lastPacketDataSize := 0 } := by
        rw [hstep]
        simp [renderUpper, String.append_assoc]
      rw [hA] at ih
      simp only [List.zipWith]
      exact analyzer.run_cons D s _ _ _ none _ _ hdec ih

/-- C6, amended: a valid Single Device Read/Write frame delivered one byte
per chunk yields, in `analyzer.py`, exactly one `Frame` result on the final
checksum byte — category Command, the looked-up command label, the device
address, register address `high <<< 8 ||| low`, and the payload bytes in
order — provided every chunk ends no later than the header chunk's start
plus the configured timeout (the code measures elapsed time from the frame
start, not inter-chunk gaps, so this is the condition that actually keeps
the transfer alive). -/
theorem c6_single_device_frame_amended (D : ℚ) (h dv r1 r0 c1 c0 : Nat)
    (payload : List Nat) (ct : String)
    (s0 e0 : ℚ) (t1 t2 t3 t5 t6 : ℚ × ℚ) (tsP : List (ℚ × ℚ))
    (hbit : h &&& FRAME_TYPE_MASK = COMMAND_FRAME)
    (hcmd : h &&& REQ_TYPE_MASK = SINGLE_DEVICE_READ
          ∨ h &&& REQ_TYPE_MASK = SINGLE_DEVICE_WRITE)
    (hct : commandTypeMap (h &&& REQ_TYPE_MASK) = some ct)
    (hlen : payload.length = (h &&& REQ_DATA_SIZE_MASK) + 1)
    (hlents : tsP.length = payload.length)
    (ht : ∀ p ∈ t1 :: t2 :: t3 :: (tsP ++ [t5, t6]), ¬(s0 + D < p.2)) :
    analyzer.run D initState
      (byteChunk h s0 e0 :: byteChunk dv t1.1 t1.2 :: byteChunk r1 t2.1 t2.2 ::
        byteChunk r0 t3.1 t3.2 ::
        (List.zipWith (fun b p => byteChunk b p.1 p.2) payload tsP
          ++ [byteChunk c1 t5.1 t5.2, byteChunk c0 t6.1 t6.2])) =
      Except.ok
        (⟨TransferState.WAIT_INIT, COMMAND_FRAME, some s0, (c1 <<< 8) ||| c0,
          renderUpper payload, 0, h &&& REQ_TYPE_MASK, dv, (r1 <<< 8) ||| r0⟩,
         none :: none :: none :: none ::
           (List.replicate payload.length none ++
             [none, some
               { rtype := "frame", startTime := s0, endTime := t6.2,
                 fields := [("message",
                   "Command - " ++ ct ++ " " ++ "Device: 0x" ++ fmt04X dv ++ " "
                     ++ "Register: 0x" ++ fmt04X ((r1 <<< 8) ||| r0) ++ " Data: "
                     ++ renderUpper payload)] }])) := by
  have hne : payload ≠ [] := by
    intro hcon
    rw [hcon] at hlen
    simp at hlen
  have hdev : h &&& REQ_TYPE_MASK = SINGLE_DEVICE_WRITE
      ∨ h &&& REQ_TYPE_MASK = SINGLE_DEVICE_READ := hcmd.elim Or.inr Or.inl
  have ht1 : ¬(s0 + D < t1.2) := ht t1 (by simp)
  have ht2 : ¬(s0 + D < t2.2) := ht t2 (by simp)
  have ht3 : ¬(s0 + D < t3.2) := ht t3 (by simp)
  have ht5 : ¬(s0 + D < t5.2) := ht t5 (by simp)
  have ht6 : ¬(s0 + D < t6.2) := ht t6 (by simp)
  have htsP : ∀ p ∈ tsP, ¬(s0 + D < p.2) := fun p hp => ht p (by simp [hp])
  have e1 : analyzer.decode D initState (byteChunk h s0 e0) =
      Except.ok (⟨TransferState.WAIT_DEV_ADDR, COMMAND_FRAME, some s0, 0, "",
        ((h &&& REQ_DATA_SIZE_MASK : Nat) : Int) + 1, h &&& REQ_TYPE_MASK, 0, 0⟩,
        none) := by
    have hh : headerStep initState h s0 =
        ⟨TransferState.WAIT_DEV_ADDR, COMMAND_FRAME, some s0, 0, "",
          ((h &&& REQ_DATA_SIZE_MASK : Nat) : Int) + 1, h &&& REQ_TYPE_MASK, 0, 0⟩ := by
      simp [headerStep, initPacket, initState, hbit, hcmd]
    rw [analyzer.decode_byte_init D initState h s0 e0 rfl, hh]
  have e2 : analyzer.decode D
      (⟨TransferState.WAIT_DEV_ADDR, COMMAND_FRAME, some s0, 0, "",
        ((h &&& REQ_DATA_SIZE_MASK : Nat) : Int) + 1, h &&& REQ_TYPE_MASK, 0, 0⟩ :
        DecoderState)
      (byteChunk dv t1.1 t1.2) =
      Except.ok (⟨TransferState.WAIT_REG_ADDR_1, COMMAND_FRAME, some s0, 0, "",
        ((h &&& REQ_DATA_SIZE_MASK : Nat) : Int) + 1, h &&& REQ_TYPE_MASK, dv, 0⟩,
        none) := by
    rw [analyzer.decode_byte_inTime D _ dv t1.1 t1.2 s0 (by simp) rfl ht1]
    simp [analyzer.loopBytes, devAddrStep]
  have e3 : analyzer.decode D
      (⟨TransferState.WAIT_REG_ADDR_1, COMMAND_FRAME, some s0, 0, "",
        ((h &&& REQ_DATA_SIZE_MASK : Nat) : Int) + 1, h &&& REQ_TYPE_MASK, dv, 0⟩ :
        DecoderState)
      (byteChunk r1 t2.1 t2.2) =
      Except.ok (⟨TransferState.WAIT_REG_ADDR_2, COMMAND_FRAME, some s0, 0, "",
        ((h &&& REQ_DATA_SIZE_MASK : Nat) : Int) + 1, h &&& REQ_TYPE_MASK, dv,
        r1 <<< 8⟩, none) := by
    rw [analyzer.decode_byte_inTime D _ r1 t2.1 t2.2 s0 (by simp) rfl ht2]
    simp [analyzer.loopBytes, regAddr1Step]
  have e4 : analyzer.decode D
      (⟨TransferState.WAIT_REG_ADDR_2, COMMAND_FRAME, some s0, 0, "",
        ((h &&& REQ_DATA_SIZE_MASK : Nat) : Int) + 1, h &&& REQ_TYPE_MASK, dv,
        r1 <<< 8⟩ : DecoderState)
      (byteChunk r0 t3.1 t3.2) =
      Except.ok (⟨TransferState.WAIT_DATA, COMMAND_FRAME, some s0, 0, "",
        ((h &&& REQ_DATA_SIZE_MASK : Nat) : Int) + 1, h &&& REQ_TYPE_MASK, dv,
        (r1 <<< 8) ||| r0⟩, none) := by
    rw [analyzer.decode_byte_inTime D _ r0 t3.1 t3.2 s0 (by simp) rfl ht3]
    simp [analyzer.loopBytes, regAddr2Step]
  have eP : analyzer.run D
      (⟨TransferState.WAIT_DATA, COMMAND_FRAME, some s0, 0, "",
        ((h &&& REQ_DATA_SIZE_MASK : Nat) : Int) + 1, h &&& REQ_TYPE_MASK, dv,
        (r1 <<< 8) ||| r0⟩ : DecoderState)
      (List.zipWith (fun b p => byteChunk b p.1 p.2) payload tsP) =
      Except.ok (⟨TransferState.WAIT_CRC_1, COMMAND_FRAME, some s0, 0,
        renderUpper payload, 0, h &&& REQ_TYPE_MASK, dv, (r1 <<< 8) ||| r0⟩,
        List.replicate payload.length none) := by
    have hsz : (⟨TransferState.WAIT_DATA, COMMAND_FRAME, some s0, 0, "",
        ((h &&& REQ_DATA_SIZE_MASK : Nat) : Int) + 1, h &&& REQ_TYPE_MASK, dv,
        (r1 <<< 8) ||| r0⟩ : DecoderState).lastPacketDataSize
        = (payload.length : Int) := by
      simp only [hlen]
      push_cast
      ring
    have hrun := analyzer.run_payload D s0 payload tsP
      ⟨TransferState.WAIT_DATA, COMMAND_FRAME, some s0, 0, "",
        ((h &&& REQ_DATA_SIZE_MASK : Nat) : Int) + 1, h &&& REQ_TYPE_MASK, dv,
        (r1 <<< 8) ||| r0⟩ hne hlents htsP rfl rfl hsz
    rw [hrun]
    simp
  have e5 : analyzer.decode D
      (⟨TransferState.WAIT_CRC_1, COMMAND_FRAME, some s0, 0,
        renderUpper payload, 0, h &&& REQ_TYPE_MASK, dv, (r1 <<< 8) ||| r0⟩ :
        DecoderState)
      (byteChunk c1 t5.1 t5.2) =
      Except.ok (⟨TransferState.WAIT_CRC_2, COMMAND_FRAME, some s0, c1 <<< 8,
        renderUpper payload, 0, h &&& REQ_TYPE_MASK, dv, (r1 <<< 8) ||| r0⟩,
        none) := by
    rw [analyzer.decode_byte_inTime D _ c1 t5.1 t5.2 s0 (by simp) rfl ht5]
    simp [analyzer.loopBytes, crc1Step]
  have e6 : analyzer.decode D
      (⟨TransferState.WAIT_CRC_2, COMMAND_FRAME, some s0, c1 <<< 8,
        renderUpper payload, 0, h &&& REQ_TYPE_MASK, dv, (r1 <<< 8) ||| r0⟩ :
        DecoderState)
      (byteChunk c0 t6.1 t6.2) =
      Except.ok (⟨TransferState.WAIT_INIT, COMMAND_FRAME, some s0,
        (c1 <<< 8) ||| c0, renderUpper payload, 0, h &&& REQ_TYPE_MASK, dv,
        (r1 <<< 8) ||| r0⟩,
        some
          { rtype := "frame", startTime := s0, endTime := t6.2,
            fields := [("message",
              "Command - " ++ ct ++ " " ++ "Device: 0x" ++ fmt04X dv ++ " "
                ++ "Register: 0x" ++ fmt04X ((r1 <<< 8) ||| r0) ++ " Data: "
                ++ renderUpper payload)] }) := by
    rw [analyzer.decode_byte_inTime D _ c0 t6.1 t6.2 s0 (by simp) rfl ht6]
    simp [analyzer.loopBytes, crc2Step, analyzer.formatResult, frameTypeMap,
      byteChunk, hct, hdev, COMMAND_FRAME, RESPONSE_FRAME]
  refine analyzer.run_cons D _ _ _ _ none _ _ e1 ?_
  refine analyzer.run_cons D _ _ _ _ none _ _ e2 ?_
  refine analyzer.run_cons D _ _ _ _ none _ _ e3 ?_
  refine analyzer.run_cons D _ _ _ _ none _ _ e4 ?_
  refine analyzer.run_append_ok D _ _ _ _ _ _ _ eP ?_
  refine analyzer.run_cons D _ _ _ _ none _ _ e5 ?_
  exact analyzer.run_cons D _ _ _ _ _ _ _ e6 rfl

/-- C6, witness: scenario 1 with the correct Command header `0x90`, all
chunks at time `0`, timeout `1`. -/
theorem c6_witness :
    analyzer.run 1 initState
      (byteChunk 0x90 0 0 :: byteChunk 0x05 0 0 :: byteChunk 0x00 0 0 ::
        byteChunk 0x2A 0 0 ::
        (List.zipWith (fun b p => byteChunk b p.1 p.2) [0xFF] [((0 : ℚ), (0 : ℚ))]
          ++ [byteChunk 0x00 0 0, byteChunk 0x00 0 0])) =
      Except.ok
        (⟨TransferState.WAIT_INIT, 0x80, some 0, 0, "0xFF ", 0, 0x10, 5, 0x2A⟩,
         [none, none, none, none, none, none, some
           { rtype := "frame", startTime := 0, endTime := 0,
             fields := [("message",
               "Command - Single Device Write Device: 0x0005 Register: 0x002A Data: 0xFF ")] }]) :=
  c6_single_device_frame_amended 1 0x90 0x05 0x00 0x2A 0x00 0x00 [0xFF]
    "Single Device Write" 0 0 (0, 0) (0, 0) (0, 0) (0, 0) (0, 0) [((0 : ℚ), (0 : ℚ))]
    (by decide) (Or.inr (by decide)) (by decide) (by decide) (by decide)
    (by
      intro p hp
      simp at hp
      subst hp
      norm_num)
